import Mathlib

/-!
# daggerok/flow: persistence provider, protocol constants and graph manager

A shallow embedding of three Go files:

* `persistence/sql_provider.go` : the SQL journal and snapshot provider,
* `protocol/constants.go` : the header and datum vocabulary,
* `actor/api.go` : the construction of the graph manager.

The SQL database is an explicit value `DB` holding the two tables as lists
of rows; every Go method that touches the database takes the database and, when
it writes, gives the new database back.  A Go `panic` is an explicit outcome.
The callback of `GetEvents` is represented by the list of the calls made to it.
The database driver answers every statement; the branches of the methods that
react to a driver error are kept.  Logging, tracing spans and the timing of slow
queries do not change any result and are left out.

The protobuf library and the actor library are not part of the repository; the
few operations of theirs that the code calls are parameters (`Proto`) or small
records that store the arguments they were called with.
-/

namespace Flow

/-! ## Go runtime -/

/-- Result of running a Go function body: it returns a value or it panics.
A panic carries the rendered error. -/
inductive Go (α : Type) where
  | returned (value : α)
  | panicked (err : String)
deriving DecidableEq

/-- Serialized payloads, Go's `[]byte`. -/
abbrev Bytes := List (Fin 256)

/-! ## The protobuf library, as used by the provider -/

/-- The operations of `github.com/golang/protobuf/proto` and `reflect` that
`sql_provider.go` calls.  `Msg` is `proto.Message`, `Ty` is `reflect.Type`.
`MessageType` is the registry of decoders: `none` is Go's `nil`.  `New` is
`reflect.New(t.Elem())` seen as a message.  `Unmarshal b m` fills `m` from `b`. -/
structure Proto (Msg Ty : Type) where
  MessageName : Msg → String
  Marshal : Msg → Except String Bytes
  MessageType : String → Option Ty
  New : Ty → Msg
  Unmarshal : Bytes → Msg → Except String Msg

/-! ## Persisted state layout -/

/-- Modelled from the spec: the table declaration is not among the sources.
One row of `events(actor_name TEXT, event_index INT, event_type TEXT, event BLOB,
PK(actor_name, event_index))`. -/
structure EventRow where
  actor_name : String
  event_index : Int
  event_type : String
  event : Bytes
deriving DecidableEq

/-- Modelled from the spec: the table declaration is not among the sources.
One row of `snapshots(actor_name TEXT PK, snapshot_type TEXT, event_index INT,
snapshot BLOB)`. -/
structure SnapshotRow where
  actor_name : String
  snapshot_type : String
  event_index : Int
  snapshot : Bytes
deriving DecidableEq

/-- The database behind `provider.db`: the content of the two tables. -/
structure DB where
  events : List EventRow
  snapshots : List SnapshotRow
deriving DecidableEq

/-- Modelled from the spec: the table declaration is not among the sources.
`(actor_name, event_index)` is a key of `events`. -/
def DB.eventsKeyed (db : DB) : Prop :=
  (db.events.map (fun r => (r.actor_name, r.event_index))).Nodup

instance DB.decidableEventsKeyed (db : DB) : Decidable db.eventsKeyed :=
  inferInstanceAs (Decidable (List.Nodup _))

/-! ## SQL statements issued by the provider -/

/-- `SELECT event_type,event_index,event FROM events where actor_name = ? AND
event_index >= ? ORDER BY event_index ASC`.  The rows are kept whole; the
caller reads the three selected columns. -/
def DB.selectEvents (db : DB) (actorName : String) (eventIndexStart : Int) : List EventRow :=
  List.insertionSort (fun x y => x.event_index ≤ y.event_index)
    (db.events.filter (fun r => decide (r.actor_name = actorName) && decide (eventIndexStart ≤ r.event_index)))

/-- `REPLACE INTO events (actor_name,event_type,event_index,event) VALUES (?,?,?,?)`:
the rows with the same primary key are deleted, then the row is inserted. -/
def DB.replaceEvent (db : DB) (row : EventRow) : DB :=
  { db with
    events :=
      db.events.filter (fun r => !(decide (r.actor_name = row.actor_name) && decide (r.event_index = row.event_index)))
        ++ [row] }

/-- `REPLACE INTO snapshots (actor_name,snapshot_type,event_index,snapshot) VALUES (?,?,?,?)`:
the rows with the same primary key are deleted, then the row is inserted. -/
def DB.replaceSnapshot (db : DB) (row : SnapshotRow) : DB :=
  { db with
    snapshots := db.snapshots.filter (fun r => !decide (r.actor_name = row.actor_name)) ++ [row] }

/-- `provider.db.Queryx` on the events query.  The driver is modelled without
transport failures: the call gives the selected rows. -/
def DB.Queryx (db : DB) (actorName : String) (eventIndexStart : Int) :
    Except String (List EventRow) :=
  .ok (db.selectEvents actorName eventIndexStart)

/-- `provider.db.Exec` on the `REPLACE INTO events` statement.  The driver is
modelled without transport failures. -/
def DB.ExecReplaceEvent (db : DB) (row : EventRow) : Except String DB :=
  .ok (db.replaceEvent row)

/-- `provider.db.Exec` on the `REPLACE INTO snapshots` statement.  The driver
is modelled without transport failures. -/
def DB.ExecReplaceSnapshot (db : DB) (row : SnapshotRow) : Except String DB :=
  .ok (db.replaceSnapshot row)

/-- Errors of `database/sql`: `sql.ErrNoRows` and any other. -/
inductive SqlError where
  | ErrNoRows
  | other (msg : String)
deriving DecidableEq

/-- The handle `*sqlx.Row` that `QueryRowx` gives: `Err()` and the result of
`Scan` into `snapshotType`, `eventIndex`, `snapshotBytes`. -/
structure Row where
  Err : Option SqlError
  Scan : Except SqlError SnapshotRow

/-- `SELECT snapshot_type,event_index,snapshot FROM snapshots WHERE actor_name = ?`
through `QueryRowx`: the first matching row, `sql.ErrNoRows` on `Scan` when there
is none. -/
def DB.QueryRowx (db : DB) (actorName : String) : Row :=
  match db.snapshots.find? (fun r => decide (r.actor_name = actorName)) with
  | some r => { Err := none, Scan := .ok r }
  | none => { Err := none, Scan := .error SqlError.ErrNoRows }

/-! ## `sql_provider.go` -/

section Provider

variable {Msg Ty : Type}

/-- `extractData(actorName, msgTypeName, msgBytes)`. -/
def extractData (proto : Proto Msg Ty) (_actorName : String) (msgTypeName : String)
    (msgBytes : Bytes) : Except String Msg :=
  match proto.MessageType msgTypeName with
  | none => .error "Unsupported protocol type %!s(<nil>)"
  | some protoType =>
    let message := proto.New protoType
    match proto.Unmarshal msgBytes message with
    | .error err => .error err
    | .ok message => .ok message

/-- The body of `GetSnapshot` after `QueryRowx`: the four early returns and
the final return, on the row handle. -/
def GetSnapshot.ofRow (proto : Proto Msg Ty) (actorName : String) (row : Row) :
    Go (Option Msg × Int × Bool) :=
  match row.Err with
  | some _ => .returned (none, -1, false)
  | none =>
    match row.Scan with
    | .error SqlError.ErrNoRows => .returned (none, -1, false)
    | .error (SqlError.other _) => .returned (none, -1, false)
    | .ok r =>
      match extractData proto actorName r.snapshot_type r.snapshot with
      | .error _ => .returned (none, -1, false)
      | .ok message => .returned (some message, r.event_index, true)

/-- `provider.GetSnapshot(actorName)`: `(snapshot, eventIndex, ok)`. -/
def GetSnapshot (proto : Proto Msg Ty) (db : DB) (actorName : String) :
    Go (Option Msg × Int × Bool) :=
  GetSnapshot.ofRow proto actorName (db.QueryRowx actorName)

/-- `provider.PersistSnapshot(actorName, eventIndex, snapshot)`: the database
afterwards, and `returned ()` or the panic. -/
def PersistSnapshot (proto : Proto Msg Ty) (db : DB) (actorName : String) (eventIndex : Int)
    (snapshot : Msg) : DB × Go Unit :=
  let pbType := proto.MessageName snapshot
  match proto.Marshal snapshot with
  | .error err => (db, .panicked err)
  | .ok pbBytes =>
    match db.ExecReplaceSnapshot
      { actor_name := actorName, snapshot_type := pbType, event_index := eventIndex,
        snapshot := pbBytes } with
    | .error err => (db, .panicked err)
    | .ok db1 => (db1, .returned ())

/-- The loop `for rows.Next()` of `GetEvents` over the selected rows: the
calls `callback(eventIndex, msg)` made, in order, and how the loop ended.  The
three columns of a row are scanned as stored. -/
def GetEvents.loop (proto : Proto Msg Ty) (actorName : String) :
    List EventRow → List (Int × Msg) × Go Unit
  | [] => ([], .returned ())
  | r :: rows =>
    match extractData proto actorName r.event_type r.event with
    | .error err => ([], .panicked err)
    | .ok msg =>
      let rest := GetEvents.loop proto actorName rows
      ((r.event_index, msg) :: rest.1, rest.2)

/-- `provider.GetEvents(actorName, eventIndexStart, callback)`: the calls made
to `callback`, in order, and `returned ()` or the panic. -/
def GetEvents (proto : Proto Msg Ty) (db : DB) (actorName : String) (eventIndexStart : Int) :
    List (Int × Msg) × Go Unit :=
  match db.Queryx actorName eventIndexStart with
  | .error err => ([], .panicked err)
  | .ok rows => GetEvents.loop proto actorName rows

/-- `provider.PersistEvent(actorName, eventIndex, event)`: the database
afterwards, and `returned ()` or the panic. -/
def PersistEvent (proto : Proto Msg Ty) (db : DB) (actorName : String) (eventIndex : Int)
    (event : Msg) : DB × Go Unit :=
  let pbType := proto.MessageName event
  match proto.Marshal event with
  | .error err => (db, .panicked err)
  | .ok pbBytes =>
    match db.ExecReplaceEvent
      { actor_name := actorName, event_type := pbType, event_index := eventIndex,
        event := pbBytes } with
    | .error err => (db, .panicked err)
    | .ok db1 => (db1, .returned ())

end Provider

/-! ## A small registry and store, used to evaluate the provider -/

/-- Two message types in the shape of the journal events of the graph actor. -/
inductive SampleMsg where
  | GraphCreated (graph : Fin 256)
  | StageAdded (stage : Fin 256)
  | Unregistered
deriving DecidableEq

/-- The `reflect.Type` values of the registered sample messages. -/
inductive SampleTy where
  | GraphCreatedTy
  | StageAddedTy
deriving DecidableEq

/-- A registry with two registered messages.  A message is serialized as one
byte; `Unregistered` has a name that is not in the registry; decoding needs
exactly one byte. -/
def sampleProto : Proto SampleMsg SampleTy where
  MessageName := fun m =>
    match m with
    | .GraphCreated _ => "model.GraphCreatedEvent"
    | .StageAdded _ => "model.StageAddedEvent"
    | .Unregistered => "model.Unregistered"
  Marshal := fun m =>
    match m with
    | .GraphCreated g => .ok [g]
    | .StageAdded s => .ok [s]
    | .Unregistered => .ok []
  MessageType := fun name =>
    if name = "model.GraphCreatedEvent" then some .GraphCreatedTy
    else if name = "model.StageAddedEvent" then some .StageAddedTy
    else none
  New := fun t =>
    match t with
    | .GraphCreatedTy => .GraphCreated 0
    | .StageAddedTy => .StageAdded 0
  Unmarshal := fun b m =>
    match b, m with
    | [x], .GraphCreated _ => .ok (.GraphCreated x)
    | [x], .StageAdded _ => .ok (.StageAdded x)
    | _, _ => .error "proto: cannot parse"

/-- A store with the journals of two graphs, rows out of order, and one
snapshot. -/
def sampleDB : DB where
  events :=
    [ { actor_name := "g1", event_index := 3, event_type := "model.StageAddedEvent", event := [8] },
      { actor_name := "g2", event_index := 1, event_type := "model.GraphCreatedEvent", event := [2] },
      { actor_name := "g1", event_index := 1, event_type := "model.GraphCreatedEvent", event := [1] },
      { actor_name := "g1", event_index := 2, event_type := "model.StageAddedEvent", event := [7] } ]
  snapshots :=
    [ { actor_name := "g1", snapshot_type := "model.GraphCreatedEvent", event_index := 2,
        snapshot := [1] } ]

/-- A store whose snapshot of `g1` and whose second event of `g1` carry a type
tag that is not registered in `sampleProto`. -/
def unknownTagDB : DB where
  events :=
    [ { actor_name := "g1", event_index := 1, event_type := "model.GraphCreatedEvent", event := [1] },
      { actor_name := "g1", event_index := 2, event_type := "model.Unregistered", event := [] } ]
  snapshots :=
    [ { actor_name := "g1", snapshot_type := "model.Unregistered", event_index := 2,
        snapshot := [] } ]

/-! ## `protocol/constants.go` -/

def HeaderDatumType : String := "Fnproject-Datumtype"
def HeaderResultStatus : String := "Fnproject-Resultstatus"
def HeaderResultCode : String := "Fnproject-Resultcode"
def HeaderStageRef : String := "Fnproject-Stageid"
def HeaderMethod : String := "Fnproject-Method"
def HeaderHeaderPrefix : String := "Fnproject-Header-"
def HeaderErrorType : String := "Fnproject-Errortype"
def HeaderStateType : String := "Fnproject-Statetype"
def HeaderThreadId : String := "Fnproject-Threadid"

def HeaderContentType : String := "Content-Type"

def ResultStatusSuccess : String := "success"
def ResultStatusFailure : String := "failure"

def DatumTypeBlob : String := "blob"
def DatumTypeEmpty : String := "empty"
def DatumTypeError : String := "error"
def DatumTypeStageRef : String := "stageref"
def DatumTypeHttpReq : String := "httpreq"
def DatumTypeHttpResp : String := "httpresp"
def DatumTypeState : String := "state"

/-! ## The actor library and the clock, as used by `actor/api.go` -/

/-- Go's `time.Duration`: a count of nanoseconds. -/
abbrev Duration := Int

/-- Go's `time.Nanosecond`. -/
def Nanosecond : Duration := 1

/-- Go's `time.Microsecond`. -/
def Microsecond : Duration := 1000 * Nanosecond

/-- Go's `time.Millisecond`. -/
def Millisecond : Duration := 1000 * Microsecond

/-- The directives of `protoactor-go/actor`: what a supervisor does with a
failing child. -/
inductive Directive where
  | ResumeDirective
  | RestartDirective
  | StopDirective
  | EscalateDirective
deriving DecidableEq

/-- The supervisor strategies of `protoactor-go/actor` with the arguments of
their constructors: `maxNrOfRetries int, withinDuration time.Duration, decider`.
`Reason` stands for the `interface{}` failure reason. -/
inductive SupervisorStrategy (Reason : Type) where
  | oneForOne (maxNrOfRetries : Int) (withinDuration : Duration) (decider : Reason → Directive)
  | allForOne (maxNrOfRetries : Int) (withinDuration : Duration) (decider : Reason → Directive)

/-- `actor.NewOneForOneStrategy(maxNrOfRetries, withinDuration, decider)`. -/
def NewOneForOneStrategy {Reason : Type} (maxNrOfRetries : Int) (withinDuration : Duration)
    (decider : Reason → Directive) : SupervisorStrategy Reason :=
  .oneForOne maxNrOfRetries withinDuration decider

/-- `*actor.PID`: the identity of a spawned actor. -/
structure PID where
  Id : String
deriving DecidableEq

/-- `*stream.UntypedStream`: the identity of an allocated stream. -/
structure UntypedStream where
  id : Nat
deriving DecidableEq

/-- Modelled from the spec: `NewExecutor` and `NewSupervisor` are not among the
sources.  The two actors of the graph manager, recorded with the arguments they
are constructed with: the executor with the base address of the function runtime,
the supervisor with the executor and the event stream it publishes to. -/
inductive Actor where
  | executor (faasAddr : String)
  | supervisor (executor : PID) (eventStream : UntypedStream)
deriving DecidableEq

/-- Modelled from the spec: `NewExecutor` is not among the sources. -/
def NewExecutor (faasAddr : String) : Actor := .executor faasAddr

/-- Modelled from the spec: `NewSupervisor` is not among the sources. -/
def NewSupervisor (executor : PID) (eventStream : UntypedStream) : Actor :=
  .supervisor executor eventStream

/-- `*actor.Props`: the actor instance and the strategy it supervises its
children with. -/
structure Props (Reason : Type) where
  actor : Actor
  supervisionStrategy : Option (SupervisorStrategy Reason)

/-- `actor.FromInstance(a)`. -/
def FromInstance {Reason : Type} (a : Actor) : Props Reason :=
  { actor := a, supervisionStrategy := none }

/-- `props.WithSupervisor(strategy)`. -/
def Props.WithSupervisor {Reason : Type} (props : Props Reason)
    (strategy : SupervisorStrategy Reason) : Props Reason :=
  { props with supervisionStrategy := some strategy }

/-- The process-wide state that `NewGraphManager` acts on: the process
registry of the actor library, by name, and the number of streams allocated. -/
structure World (Reason : Type) where
  processes : List (String × Props Reason)
  streams : Nat

/-- `actor.SpawnNamed(props, name)`: the PID and the error.  A name that is
already registered gives its PID and an error, and spawns nothing. -/
def SpawnNamed {Reason : Type} (props : Props Reason) (name : String) (w : World Reason) :
    (PID × Option String) × World Reason :=
  match w.processes.lookup name with
  | some _ => (({ Id := name }, some "spawn: name exists"), w)
  | none => (({ Id := name }, none), { w with processes := w.processes ++ [(name, props)] })

/-- `stream.NewUntypedStream()`: a fresh stream. -/
def NewUntypedStream {Reason : Type} (w : World Reason) : UntypedStream × World Reason :=
  ({ id := w.streams }, { w with streams := w.streams + 1 })

/-! ## `actor/api.go` -/

/-- The struct `actorManager`; a Go pointer that is `nil` is `none`. -/
structure actorManager where
  log : String
  supervisor : Option PID
  executor : Option PID
  eventStream : Option UntypedStream
deriving DecidableEq

/-- The closure `decider` of `NewGraphManager`; the warning it logs is not
part of the state. -/
def NewGraphManager.decider {Reason : Type} (_reason : Reason) : Directive :=
  Directive.StopDirective

/-- `NewGraphManager(fnHost, fnPort)`.  The struct literal of the result sets
`log`, `supervisor` and `executor`; the field `eventStream` keeps the zero value. -/
def NewGraphManager {Reason : Type} (fnHost fnPort : String) (w : World Reason) :
    actorManager × World Reason :=
  let strategy : SupervisorStrategy Reason := NewOneForOneStrategy 10 1000 NewGraphManager.decider
  let executorProps : Props Reason :=
    (FromInstance (NewExecutor ("http://" ++ fnHost ++ ":" ++ fnPort ++ "/r"))).WithSupervisor strategy
  let (spawnedExecutor, w1) := SpawnNamed executorProps "executor" w
  let executor := spawnedExecutor.1
  let (eventStream, w2) := NewUntypedStream w1
  let supervisorProps : Props Reason :=
    (FromInstance (NewSupervisor executor eventStream)).WithSupervisor strategy
  let (spawnedSupervisor, w3) := SpawnNamed supervisorProps "supervisor" w2
  let supervisor := spawnedSupervisor.1
  ({ log := "graphManager",
     supervisor := some supervisor,
     executor := some executor,
     eventStream := none },
   w3)

/-- `m.GetEventStream()`. -/
def actorManager.GetEventStream (m : actorManager) : Option UntypedStream :=
  m.eventStream

/-- The world of a process that has spawned no actor and allocated no stream. -/
def World.init (Reason : Type) : World Reason :=
  { processes := [], streams := 0 }

/-! ## Lemmas on the journal query -/

section JournalLemmas

variable {Msg Ty : Type}

theorem mem_selectEvents (db : DB) (a : String) (k : Int) (r : EventRow) :
    r ∈ db.selectEvents a k ↔ r ∈ db.events ∧ r.actor_name = a ∧ k ≤ r.event_index := by
  unfold DB.selectEvents
  rw [(List.perm_insertionSort _ _).mem_iff]
  simp [List.mem_filter]

theorem selectEvents_sorted_le (db : DB) (a : String) (k : Int) :
    ((db.selectEvents a k).map (fun r => r.event_index)).Sorted (fun x y => x ≤ y) := by
  unfold DB.selectEvents
  haveI : IsTotal EventRow (fun x y => x.event_index ≤ y.event_index) :=
    ⟨fun x y => le_total x.event_index y.event_index⟩
  haveI : IsTrans EventRow (fun x y => x.event_index ≤ y.event_index) :=
    ⟨fun _ _ _ hxy hyz => le_trans hxy hyz⟩
  have h := List.sorted_insertionSort (fun x y : EventRow => x.event_index ≤ y.event_index)
    (db.events.filter (fun r => decide (r.actor_name = a) && decide (k ≤ r.event_index)))
  exact List.pairwise_map.mpr h

theorem selectEvents_nodup (db : DB) (a : String) (k : Int) (hkey : db.eventsKeyed) :
    ((db.selectEvents a k).map (fun r => r.event_index)).Nodup := by
  unfold DB.selectEvents
  refine ((List.perm_insertionSort _ _).map _).nodup_iff.mpr ?_
  have hsub : (db.events.filter
      (fun r => decide (r.actor_name = a) && decide (k ≤ r.event_index))).Sublist db.events :=
    List.filter_sublist _
  have hk : ((db.events.filter
      (fun r => decide (r.actor_name = a) && decide (k ≤ r.event_index))).map
        (fun r => (r.actor_name, r.event_index))).Nodup :=
    List.Nodup.sublist (hsub.map _) hkey
  rw [List.nodup_map_iff_inj_on (List.Nodup.of_map _ hk)]
  intro x hx y hy hxy
  have hx1 : x.actor_name = a := by
    have := (List.mem_filter.mp hx).2
    simp at this
    exact this.1
  have hy1 : y.actor_name = a := by
    have := (List.mem_filter.mp hy).2
    simp at this
    exact this.1
  exact List.inj_on_of_nodup_map hk hx hy (by rw [hx1, hy1, hxy])

theorem selectEvents_sorted_lt (db : DB) (a : String) (k : Int) (hkey : db.eventsKeyed) :
    ((db.selectEvents a k).map (fun r => r.event_index)).Sorted (fun x y => x < y) :=
  (selectEvents_sorted_le db a k).lt_of_le (selectEvents_nodup db a k hkey)

/-- When every row decodes the loop returns, and its calls are the rows in order. -/
theorem loop_of_decodes (proto : Proto Msg Ty) (a : String) (rows : List EventRow)
    (hdec : ∀ r ∈ rows, ∃ m, extractData proto a r.event_type r.event = .ok m) :
    (GetEvents.loop proto a rows).2 = .returned () ∧
    List.Forall₂ (fun r t => t.1 = r.event_index ∧
        extractData proto a r.event_type r.event = .ok t.2) rows (GetEvents.loop proto a rows).1 := by
  induction rows with
  | nil => exact ⟨rfl, List.Forall₂.nil⟩
  | cons r rows ih =>
    obtain ⟨m, hm⟩ := hdec r (List.mem_cons_self _ _)
    have ih1 := ih (fun x hx => hdec x (List.mem_cons_of_mem _ hx))
    simp only [GetEvents.loop, hm]
    exact ⟨ih1.1, List.Forall₂.cons ⟨rfl, hm⟩ ih1.2⟩

theorem forall₂_map_index (proto : Proto Msg Ty) (a : String) {rows : List EventRow}
    {trace : List (Int × Msg)}
    (h : List.Forall₂ (fun r t => t.1 = r.event_index ∧
        extractData proto a r.event_type r.event = .ok t.2) rows trace) :
    trace.map Prod.fst = rows.map (fun r => r.event_index) := by
  induction h with
  | nil => rfl
  | cons hab _ ih => simp [hab.1, ih]

theorem filter_index_eq_singleton {Msg : Type} (trace : List (Int × Msg)) (t : Int × Msg)
    (hnd : (trace.map Prod.fst).Nodup) (ht : t ∈ trace) :
    trace.filter (fun u => decide (u.1 = t.1)) = [t] := by
  induction trace with
  | nil => cases ht
  | cons u us ih =>
    rw [List.map_cons, List.nodup_cons] at hnd
    rcases List.mem_cons.mp ht with h | h
    · subst h
      have hnone : us.filter (fun u => decide (u.1 = t.1)) = [] := by
        rw [List.filter_eq_nil_iff]
        intro v hv hv1
        exact hnd.1 (by simpa using ⟨v.2, by simpa [← of_decide_eq_true hv1] using hv⟩)
      simp [List.filter_cons, hnone]
    · have hne : ¬ u.1 = t.1 := by
        intro he
        exact hnd.1 (by rw [he]; exact List.mem_map_of_mem _ h)
      simp [List.filter_cons, hne, ih hnd.2 h]

theorem forall₂_mem_right {α β : Type} {R : α → β → Prop} {l₁ : List α} {l₂ : List β}
    (h : List.Forall₂ R l₁ l₂) : ∀ b ∈ l₂, ∃ a ∈ l₁, R a b := by
  induction h with
  | nil => intro b hb; cases hb
  | cons hab _ ih =>
    intro b hb
    rcases List.mem_cons.mp hb with rfl | hb
    · exact ⟨_, List.mem_cons_self _ _, hab⟩
    · obtain ⟨a, ha, hr⟩ := ih b hb
      exact ⟨a, List.mem_cons_of_mem _ ha, hr⟩

theorem forall₂_mem_left {α β : Type} {R : α → β → Prop} {l₁ : List α} {l₂ : List β}
    (h : List.Forall₂ R l₁ l₂) : ∀ a ∈ l₁, ∃ b ∈ l₂, R a b := by
  induction h with
  | nil => intro a ha; cases ha
  | cons hab _ ih =>
    intro a ha
    rcases List.mem_cons.mp ha with rfl | ha
    · exact ⟨_, List.mem_cons_self _ _, hab⟩
    · obtain ⟨b, hb, hr⟩ := ih a ha
      exact ⟨b, List.mem_cons_of_mem _ hb, hr⟩

end JournalLemmas

/-! ## The journal read, `GetEvents` -/

section GetEventsTheorems

variable {Msg Ty : Type}

/-- C1: when `(actor_name, event_index)` is a key of `events` and every stored
event decodes, `GetEvents(a, k, cb)` returns, the indices it passes to `cb` are
strictly ascending, every stored event of `a` with index at least `k` is passed
exactly once (the calls with its index are the single call with its decoded
message), and every call comes from such a stored event. -/
theorem GetEvents_delivers_selected_ascending (proto : Proto Msg Ty) (db : DB) (a : String)
    (k : Int) (hkey : db.eventsKeyed)
    (hdec : ∀ r ∈ db.events, ∃ m, extractData proto r.actor_name r.event_type r.event = .ok m) :
    (GetEvents proto db a k).2 = .returned () ∧
    ((GetEvents proto db a k).1.map Prod.fst).Sorted (fun x y => x < y) ∧
    (∀ r ∈ db.events, r.actor_name = a → k ≤ r.event_index →
      ∃ m, extractData proto a r.event_type r.event = .ok m ∧
        (GetEvents proto db a k).1.filter (fun t => decide (t.1 = r.event_index))
          = [(r.event_index, m)]) ∧
    (∀ t ∈ (GetEvents proto db a k).1,
      ∃ r ∈ db.events, r.actor_name = a ∧ k ≤ r.event_index ∧ t.1 = r.event_index ∧
        extractData proto a r.event_type r.event = .ok t.2) := by
  have hrows : ∀ r ∈ db.selectEvents a k,
      ∃ m, extractData proto a r.event_type r.event = .ok m := by
    intro r hr
    exact hdec r ((mem_selectEvents db a k r).mp hr).1
  obtain ⟨hret, hall⟩ := loop_of_decodes proto a (db.selectEvents a k) hrows
  have hG : GetEvents proto db a k = GetEvents.loop proto a (db.selectEvents a k) := rfl
  have hidx := forall₂_map_index proto a hall
  have hsorted : ((GetEvents proto db a k).1.map Prod.fst).Sorted (fun x y => x < y) := by
    rw [hG, hidx]
    exact selectEvents_sorted_lt db a k hkey
  refine ⟨by rw [hG]; exact hret, hsorted, ?_, ?_⟩
  · intro r hr ha hk
    obtain ⟨t, ht, hti, htm⟩ :=
      forall₂_mem_left hall r ((mem_selectEvents db a k r).mpr ⟨hr, ha, hk⟩)
    refine ⟨t.2, htm, ?_⟩
    rw [hG]
    have := filter_index_eq_singleton _ t (by rw [← hG]; exact hsorted.nodup) ht
    rw [hti] at this
    rw [this, ← hti]
  · intro t ht
    rw [hG] at ht
    obtain ⟨r, hr, hti, htm⟩ := forall₂_mem_right hall t ht
    obtain ⟨hmem, ha, hk⟩ := (mem_selectEvents db a k r).mp hr
    exact ⟨r, hmem, ha, hk, hti, htm⟩

/-- Witness of C1 on the sample store: the journal of `g1` from index 2. -/
theorem GetEvents_delivers_selected_ascending_witness :
    sampleDB.eventsKeyed ∧
    (GetEvents sampleProto sampleDB "g1" 2).2 = .returned () ∧
    ((GetEvents sampleProto sampleDB "g1" 2).1.map Prod.fst).Sorted (fun x y => x < y) ∧
    GetEvents sampleProto sampleDB "g1" 2 =
      ([(2, .StageAdded 7), (3, .StageAdded 8)], .returned ()) :=
  have h := GetEvents_delivers_selected_ascending sampleProto sampleDB "g1" 2 (by decide)
    (by
      intro r hr
      simp only [sampleDB, List.mem_cons, List.mem_singleton, List.not_mem_nil, or_false] at hr
      rcases hr with rfl | rfl | rfl | rfl <;> exact ⟨_, rfl⟩)
  ⟨by decide, h.1, h.2.1, by decide⟩

end GetEventsTheorems

/-! ## Writes: `PersistEvent`, `PersistSnapshot` -/

section WriteTheorems

variable {Msg Ty : Type}

theorem find?_filter_not_append {α : Type} (p : α → Bool) (l : List α) (x : α) (hx : p x = true) :
    (l.filter (fun r => !p r) ++ [x]).find? p = some x := by
  induction l with
  | nil => simp [List.find?, hx]
  | cons y ys ih =>
    by_cases hy : p y = true
    · simpa [List.filter_cons, hy] using ih
    · simp only [Bool.not_eq_true] at hy
      simp only [List.filter_cons, hy, Bool.not_false, if_true, List.cons_append, List.find?_cons]
      exact ih

theorem filter_filter_not_append {α : Type} (p q : α → Bool) (l : List α) (x : α)
    (hx : p x = false) (hpq : ∀ r, p r = true → q r = false) :
    (l.filter (fun r => !q r) ++ [x]).filter p = l.filter p := by
  rw [List.filter_append, List.filter_filter]
  have h1 : [x].filter p = [] := by simp [hx]
  rw [h1, List.append_nil]
  apply List.filter_congr
  intro r _
  cases hp : p r
  · simp
  · simp [hpq r hp]

theorem filter_self_filter_not_append {α : Type} (p : α → Bool) (l : List α) (x : α)
    (hx : p x = true) :
    (l.filter (fun r => !p r) ++ [x]).filter p = [x] := by
  rw [List.filter_append, List.filter_filter]
  have h1 : [x].filter p = [x] := by simp [hx]
  have h2 : l.filter (fun a => p a && !p a) = [] := by
    rw [List.filter_eq_nil_iff]
    intro a _
    cases p a <;> simp
  rw [h1, h2, List.nil_append]

theorem filter_not_filter_not_append {α : Type} (p : α → Bool) (l : List α) (x : α)
    (hx : p x = true) :
    (l.filter (fun r => !p r) ++ [x]).filter (fun r => !p r) = l.filter (fun r => !p r) := by
  rw [List.filter_append, List.filter_filter]
  have h1 : [x].filter (fun r => !p r) = [] := by simp [hx]
  rw [h1, List.append_nil]
  apply List.filter_congr
  intro r _
  cases p r <;> simp

/-- C2: calling `PersistEvent(a, i, e)` a second time on the store left by a
first call gives the same store and the same outcome as the first call, for every
event; and when `e` serializes to `b` the call returns and the rows of `events`
with key `(a, i)` are then the single row carrying the type name of `e` and `b`,
whatever was stored at `(a, i)` before. -/
theorem PersistEvent_idempotent_upsert (proto : Proto Msg Ty) (db : DB) (a : String) (i : Int)
    (e : Msg) :
    PersistEvent proto (PersistEvent proto db a i e).1 a i e = PersistEvent proto db a i e ∧
    (∀ b : Bytes, proto.Marshal e = .ok b →
      (PersistEvent proto db a i e).2 = .returned () ∧
      (PersistEvent proto db a i e).1.events.filter
          (fun r => decide (r.actor_name = a) && decide (r.event_index = i))
        = [{ actor_name := a, event_index := i, event_type := proto.MessageName e,
             event := b }]) := by
  cases hm : proto.Marshal e with
  | error err =>
    constructor
    · simp only [PersistEvent, hm]
    · intro b hb
      cases hb
  | ok bytes =>
    simp only [PersistEvent, hm, DB.ExecReplaceEvent, DB.replaceEvent]
    refine ⟨?_, ?_⟩
    · rw [filter_not_filter_not_append
        (fun r : EventRow => decide (r.actor_name = a) && decide (r.event_index = i)) db.events _
        (by simp)]
    · intro b hb
      cases hb
      exact ⟨trivial, filter_self_filter_not_append
        (fun r : EventRow => decide (r.actor_name = a) && decide (r.event_index = i)) db.events _
        (by simp)⟩

/-- Witness of C2 on the sample store: the event 2 of `g1` is written again
with another payload. -/
theorem PersistEvent_idempotent_upsert_witness :
    sampleProto.Marshal (.StageAdded 9) = .ok [9] ∧
    PersistEvent sampleProto (PersistEvent sampleProto sampleDB "g1" 2 (.StageAdded 9)).1 "g1" 2
        (.StageAdded 9) = PersistEvent sampleProto sampleDB "g1" 2 (.StageAdded 9) ∧
    (PersistEvent sampleProto sampleDB "g1" 2 (.StageAdded 9)).2 = .returned () ∧
    (PersistEvent sampleProto sampleDB "g1" 2 (.StageAdded 9)).1.events.filter
        (fun r => decide (r.actor_name = "g1") && decide (r.event_index = 2))
      = [{ actor_name := "g1", event_index := 2,
           event_type := sampleProto.MessageName (.StageAdded 9), event := [9] }] :=
  have h := PersistEvent_idempotent_upsert sampleProto sampleDB "g1" 2 (.StageAdded 9)
  ⟨rfl, h.1, h.2 [9] rfl⟩

/-- C3: for a snapshot `s` that serializes to `b`, whose type name is
registered with type `ty` and for which `b` decodes to `s1`,
`PersistSnapshot(a, i, s)` returns, the rows of `snapshots` for `a` are then the
single row written, and `GetSnapshot(a)` returns `(s1, i, true)`, whatever was
stored for `a` before. -/
theorem PersistSnapshot_replaces_prior (proto : Proto Msg Ty) (db : DB) (a : String) (i : Int)
    (s s1 : Msg) (b : Bytes) (ty : Ty) (hm : proto.Marshal s = .ok b)
    (hreg : proto.MessageType (proto.MessageName s) = some ty)
    (hdec : proto.Unmarshal b (proto.New ty) = .ok s1) :
    (PersistSnapshot proto db a i s).2 = .returned () ∧
    (PersistSnapshot proto db a i s).1.snapshots.filter (fun r => decide (r.actor_name = a))
      = [{ actor_name := a, snapshot_type := proto.MessageName s, event_index := i,
           snapshot := b }] ∧
    GetSnapshot proto (PersistSnapshot proto db a i s).1 a = .returned (some s1, i, true) := by
  simp only [PersistSnapshot, hm, DB.ExecReplaceSnapshot, DB.replaceSnapshot]
  refine ⟨trivial, ?_, ?_⟩
  · exact filter_self_filter_not_append
      (fun r : SnapshotRow => decide (r.actor_name = a)) db.snapshots _ (by simp)
  · simp only [GetSnapshot, DB.QueryRowx]
    rw [find?_filter_not_append (fun r : SnapshotRow => decide (r.actor_name = a)) db.snapshots _
      (by simp)]
    simp only [GetSnapshot.ofRow, extractData, hreg, hdec]

/-- Witness of C3 on the sample store, which already holds a snapshot of `g1`. -/
theorem PersistSnapshot_replaces_prior_witness :
    sampleProto.Marshal (.StageAdded 5) = .ok [5] ∧
    (PersistSnapshot sampleProto sampleDB "g1" 3 (.StageAdded 5)).2 = .returned () ∧
    (PersistSnapshot sampleProto sampleDB "g1" 3 (.StageAdded 5)).1.snapshots.filter
        (fun r => decide (r.actor_name = "g1"))
      = [{ actor_name := "g1", snapshot_type := sampleProto.MessageName (.StageAdded 5),
           event_index := 3, snapshot := [5] }] ∧
    GetSnapshot sampleProto (PersistSnapshot sampleProto sampleDB "g1" 3 (.StageAdded 5)).1 "g1"
      = .returned (some (.StageAdded 5), 3, true) :=
  ⟨rfl, PersistSnapshot_replaces_prior sampleProto sampleDB "g1" 3 (.StageAdded 5) (.StageAdded 5)
    [5] .StageAddedTy rfl rfl rfl⟩

theorem selectEvents_replaceEvent_other (db : DB) (row : EventRow) (b : String) (k : Int)
    (hb : b ≠ row.actor_name) :
    (db.replaceEvent row).selectEvents b k = db.selectEvents b k := by
  unfold DB.selectEvents DB.replaceEvent
  simp only
  rw [filter_filter_not_append
    (fun r : EventRow => decide (r.actor_name = b) && decide (k ≤ r.event_index))
    (fun r : EventRow => decide (r.actor_name = row.actor_name) &&
      decide (r.event_index = row.event_index)) db.events row
    (by simp [Ne.symm hb])
    (by
      intro r hr
      simp only [Bool.and_eq_true, decide_eq_true_eq] at hr
      simp [hr.1, hb])]

theorem QueryRowx_replaceSnapshot_other (db : DB) (row : SnapshotRow) (b : String)
    (hb : b ≠ row.actor_name) :
    (db.replaceSnapshot row).QueryRowx b = db.QueryRowx b := by
  unfold DB.QueryRowx DB.replaceSnapshot
  simp only
  have h : (db.snapshots.filter (fun r => !decide (r.actor_name = row.actor_name)) ++ [row]).find?
      (fun r => decide (r.actor_name = b)) =
      db.snapshots.find? (fun r => decide (r.actor_name = b)) := by
    induction db.snapshots with
    | nil => simp [List.find?, Ne.symm hb]
    | cons y ys ih =>
      by_cases hy : y.actor_name = row.actor_name
      · have hyb : ¬ y.actor_name = b := fun h => hb (h ▸ hy)
        rw [List.filter_cons_of_neg (by simp [hy]), List.find?_cons_of_neg _ (by simp [hyb])]
        exact ih
      · rw [List.filter_cons_of_pos (by simp [hy]), List.cons_append]
        by_cases hyb : y.actor_name = b
        · rw [List.find?_cons_of_pos _ (by simp [hyb]), List.find?_cons_of_pos _ (by simp [hyb])]
        · rw [List.find?_cons_of_neg _ (by simp [hyb]), List.find?_cons_of_neg _ (by simp [hyb])]
          exact ih
  rw [h]

/-- C10: `PersistEvent(a, i, e)` leaves the snapshots table and every events
row with a key other than `(a, i)` unchanged, `PersistSnapshot(a, i, s)` leaves
the events table and every snapshots row of another actor unchanged, and for every
actor `b` other than `a` both `GetEvents(b, k, cb)` and `GetSnapshot(b)` give the
same result after either write as before it. -/
theorem writes_framed_by_key (proto : Proto Msg Ty) (db : DB) (a : String) (i : Int) (m : Msg) :
    ((PersistEvent proto db a i m).1.snapshots = db.snapshots ∧
      (PersistEvent proto db a i m).1.events.filter
          (fun r => !(decide (r.actor_name = a) && decide (r.event_index = i)))
        = db.events.filter (fun r => !(decide (r.actor_name = a) && decide (r.event_index = i)))) ∧
    ((PersistSnapshot proto db a i m).1.events = db.events ∧
      (PersistSnapshot proto db a i m).1.snapshots.filter (fun r => !decide (r.actor_name = a))
        = db.snapshots.filter (fun r => !decide (r.actor_name = a))) ∧
    (∀ (b : String) (k : Int), b ≠ a →
      GetEvents proto (PersistEvent proto db a i m).1 b k = GetEvents proto db b k ∧
      GetSnapshot proto (PersistEvent proto db a i m).1 b = GetSnapshot proto db b ∧
      GetEvents proto (PersistSnapshot proto db a i m).1 b k = GetEvents proto db b k ∧
      GetSnapshot proto (PersistSnapshot proto db a i m).1 b = GetSnapshot proto db b) := by
  cases hm : proto.Marshal m with
  | error err =>
    simp [PersistEvent, PersistSnapshot, hm]
  | ok bytes =>
    simp only [PersistEvent, PersistSnapshot, hm, DB.ExecReplaceEvent, DB.ExecReplaceSnapshot]
    refine ⟨⟨rfl, ?_⟩, ⟨rfl, ?_⟩, ?_⟩
    · exact filter_not_filter_not_append
        (fun r : EventRow => decide (r.actor_name = a) && decide (r.event_index = i)) db.events _
        (by simp)
    · exact filter_not_filter_not_append
        (fun r : SnapshotRow => decide (r.actor_name = a)) db.snapshots _ (by simp)
    · intro b k hb
      refine ⟨?_, rfl, rfl, ?_⟩
      · simp only [GetEvents, DB.Queryx]
        rw [selectEvents_replaceEvent_other db _ b k hb]
      · simp only [GetSnapshot]
        rw [QueryRowx_replaceSnapshot_other db _ b hb]

/-- Witness of C10 on the sample store: writes for `g1`, reads for `g2`. -/
theorem writes_framed_by_key_witness :
    "g2" ≠ "g1" ∧
    GetEvents sampleProto (PersistEvent sampleProto sampleDB "g1" 2 (.StageAdded 9)).1 "g2" 0
      = GetEvents sampleProto sampleDB "g2" 0 ∧
    GetSnapshot sampleProto (PersistSnapshot sampleProto sampleDB "g1" 2 (.StageAdded 9)).1 "g2"
      = GetSnapshot sampleProto sampleDB "g2" :=
  have h := (writes_framed_by_key sampleProto sampleDB "g1" 2 (.StageAdded 9)).2.2 "g2" 0
    (by decide)
  ⟨by decide, h.1, h.2.2.2⟩

end WriteTheorems

/-! ## Reads and undecodable rows -/

section ReadTheorems

variable {Msg Ty : Type}

theorem extractData_unknown_tag (proto : Proto Msg Ty) (a : String) (tag : String) (b : Bytes)
    (h : proto.MessageType tag = none) :
    extractData proto a tag b = .error "Unsupported protocol type %!s(<nil>)" := by
  simp only [extractData, h]

theorem loop_panics_of_undecodable (proto : Proto Msg Ty) (a : String) (rows : List EventRow)
    (h : ∃ r ∈ rows, ∃ err, extractData proto a r.event_type r.event = .error err) :
    ∃ err, (GetEvents.loop proto a rows).2 = .panicked err := by
  induction rows with
  | nil =>
    obtain ⟨r, hr, _⟩ := h
    cases hr
  | cons x xs ih =>
    cases hx : extractData proto a x.event_type x.event with
    | error err => exact ⟨err, by simp only [GetEvents.loop, hx]⟩
    | ok msg =>
      obtain ⟨r, hr, err, he⟩ := h
      rcases List.mem_cons.mp hr with rfl | hr
      · rw [hx] at he
        cases he
      · obtain ⟨err1, h1⟩ := ih ⟨r, hr, err, he⟩
        exact ⟨err1, by simp only [GetEvents.loop, hx, h1]⟩

/-- C4, as the code has it: an unknown type tag is fatal in `GetEvents` and is
not fatal in `GetSnapshot`.  If a stored event of `a` with index at least `k`
carries a tag without registered decoder, `GetEvents(a, k, cb)` panics; if the row
that `GetSnapshot(a)` reads carries such a tag, `GetSnapshot(a)` returns
`(nil, -1, false)`. -/
theorem unknown_tag_fatal_in_GetEvents_only (proto : Proto Msg Ty) (db : DB) (a : String) :
    (∀ (k : Int) (r : EventRow), r ∈ db.events → r.actor_name = a → k ≤ r.event_index →
      proto.MessageType r.event_type = none →
      ∃ err, (GetEvents proto db a k).2 = .panicked err) ∧
    (∀ r : SnapshotRow, db.snapshots.find? (fun x => decide (x.actor_name = a)) = some r →
      proto.MessageType r.snapshot_type = none →
      GetSnapshot proto db a = .returned (none, -1, false)) := by
  constructor
  · intro k r hr ha hk htag
    have hmem : r ∈ db.selectEvents a k := (mem_selectEvents db a k r).mpr ⟨hr, ha, hk⟩
    exact loop_panics_of_undecodable proto a _
      ⟨r, hmem, _, extractData_unknown_tag proto a r.event_type r.event htag⟩
  · intro r hfind htag
    simp only [GetSnapshot, DB.QueryRowx, hfind, GetSnapshot.ofRow,
      extractData_unknown_tag proto a r.snapshot_type r.snapshot htag]

/-- Witness of C4 as amended, on the store with unregistered tags. -/
theorem unknown_tag_fatal_in_GetEvents_only_witness :
    (∃ err, (GetEvents sampleProto unknownTagDB "g1" 0).2 = .panicked err) ∧
    GetSnapshot sampleProto unknownTagDB "g1" = .returned (none, -1, false) :=
  have h := unknown_tag_fatal_in_GetEvents_only sampleProto unknownTagDB "g1"
  ⟨h.1 0 { actor_name := "g1", event_index := 2, event_type := "model.Unregistered", event := [] }
      (by decide) rfl (by decide) (by decide),
   h.2 { actor_name := "g1", snapshot_type := "model.Unregistered", event_index := 2,
         snapshot := [] } (by decide) (by decide)⟩

/-- C4 fails as stated: the snapshot row of `g1` in `unknownTagDB` carries a
tag that resolves to no registered decoder, and `GetSnapshot` returns
`(nil, -1, false)` instead of panicking. -/
theorem unknown_tag_not_fatal_in_GetSnapshot :
    (∃ r ∈ unknownTagDB.snapshots, r.actor_name = "g1" ∧
      sampleProto.MessageType r.snapshot_type = none) ∧
    GetSnapshot sampleProto unknownTagDB "g1" = .returned (none, -1, false) ∧
    ¬ ∃ err, GetSnapshot sampleProto unknownTagDB "g1" = .panicked err := by
  refine ⟨⟨_, List.mem_singleton.mpr rfl, rfl, by decide⟩, by decide, ?_⟩
  rintro ⟨err, h⟩
  have h2 : GetSnapshot sampleProto unknownTagDB "g1" = .returned (none, -1, false) := by decide
  rw [h2] at h
  cases h

/-- `extractData` gives a message exactly when the tag is registered and the
library decodes the bytes into a fresh message of the registered type. -/
theorem extractData_ok_iff (proto : Proto Msg Ty) (a : String) (tag : String) (b : Bytes)
    (m : Msg) :
    extractData proto a tag b = .ok m ↔
      ∃ ty, proto.MessageType tag = some ty ∧ proto.Unmarshal b (proto.New ty) = .ok m := by
  unfold extractData
  cases hreg : proto.MessageType tag with
  | none => simp
  | some ty =>
    cases hun : proto.Unmarshal b (proto.New ty) with
    | error err => simp [hun]
    | ok msg => simp [hun]

/-- The cases of `GetSnapshot` in terms of `extractData`. -/
theorem GetSnapshot_ofRow_cases (proto : Proto Msg Ty) (db : DB) (a : String) (row : Row) :
    (∃ res, GetSnapshot.ofRow proto a row = .returned res ∧
      (res.2.2 = true ↔
        row.Err = none ∧ ∃ r m, row.Scan = .ok r ∧
          extractData proto a r.snapshot_type r.snapshot = .ok m) ∧
      (∀ r m, row.Err = none → row.Scan = .ok r →
        extractData proto a r.snapshot_type r.snapshot = .ok m →
        res = (some m, r.event_index, true)) ∧
      (res.2.2 = false → res = (none, -1, false))) ∧
    (∃ res, GetSnapshot proto db a = .returned res ∧
      (res.2.2 = true ↔
        ∃ r m, db.snapshots.find? (fun x => decide (x.actor_name = a)) = some r ∧
          extractData proto a r.snapshot_type r.snapshot = .ok m) ∧
      (∀ r m, db.snapshots.find? (fun x => decide (x.actor_name = a)) = some r →
        extractData proto a r.snapshot_type r.snapshot = .ok m →
        res = (some m, r.event_index, true)) ∧
      (res.2.2 = false → res = (none, -1, false))) := by
  have key : ∀ rw : Row, ∃ res, GetSnapshot.ofRow proto a rw = .returned res ∧
      (res.2.2 = true ↔
        rw.Err = none ∧ ∃ r m, rw.Scan = .ok r ∧
          extractData proto a r.snapshot_type r.snapshot = .ok m) ∧
      (∀ r m, rw.Err = none → rw.Scan = .ok r →
        extractData proto a r.snapshot_type r.snapshot = .ok m →
        res = (some m, r.event_index, true)) ∧
      (res.2.2 = false → res = (none, -1, false)) := by
    intro rw
    obtain ⟨e, sc⟩ := rw
    cases e with
    | some err =>
      exact ⟨(none, -1, false), rfl, by simp, (by intro r m h; cases h), fun _ => rfl⟩
    | none =>
      cases sc with
      | error serr =>
        cases serr with
        | ErrNoRows =>
          exact ⟨(none, -1, false), rfl, by simp, (by intro r m _ h; cases h), fun _ => rfl⟩
        | other msg =>
          exact ⟨(none, -1, false), rfl, by simp, (by intro r m _ h; cases h), fun _ => rfl⟩
      | ok r0 =>
        cases hx : extractData proto a r0.snapshot_type r0.snapshot with
        | error err =>
          refine ⟨(none, -1, false), by simp only [GetSnapshot.ofRow, hx], ?_, ?_, fun _ => rfl⟩
          · constructor
            · intro h; cases h
            · rintro ⟨_, r, m, hr, hm⟩
              cases hr
              rw [hx] at hm
              cases hm
          · intro r m _ hr hm
            cases hr
            rw [hx] at hm
            cases hm
        | ok msg =>
          refine ⟨(some msg, r0.event_index, true), by simp only [GetSnapshot.ofRow, hx], ?_, ?_, ?_⟩
          · exact ⟨fun _ => ⟨rfl, r0, msg, rfl, hx⟩, fun _ => rfl⟩
          · intro r m _ hr hm
            cases hr
            rw [hx] at hm
            cases hm
            rfl
          · intro h; cases h
  refine ⟨key row, ?_⟩
  obtain ⟨res, hres, hiff, hval, hnone⟩ := key (db.QueryRowx a)
  refine ⟨res, hres, ?_, ?_, hnone⟩
  · rw [hiff]
    unfold DB.QueryRowx
    cases hf : db.snapshots.find? (fun x => decide (x.actor_name = a)) with
    | none => simp
    | some r0 => simp
  · intro r m hf hm
    apply hval r m
    · unfold DB.QueryRowx; rw [hf]
    · unfold DB.QueryRowx; rw [hf]
    · exact hm


/-- C5: `GetSnapshot` never panics.  On every row handle it returns
`ok = true` exactly when the query raised no error, the scan gave a row, the
`snapshot_type` of that row is registered and `proto.Unmarshal` decodes the payload
into a fresh message of the registered type; it then returns the decoded message
and the `event_index` of the row, and in every other case (query error, no row,
scan error, unregistered tag, `Unmarshal` error) it returns `(nil, -1, false)`.
On the store, the row read is the row of `snapshots` for the actor. -/
theorem GetSnapshot_some_or_none (proto : Proto Msg Ty) (db : DB) (a : String) (row : Row) :
    (∃ res, GetSnapshot.ofRow proto a row = .returned res ∧
      (res.2.2 = true ↔
        row.Err = none ∧ ∃ r ty m, row.Scan = .ok r ∧
          proto.MessageType r.snapshot_type = some ty ∧
          proto.Unmarshal r.snapshot (proto.New ty) = .ok m) ∧
      (∀ r ty m, row.Err = none → row.Scan = .ok r →
        proto.MessageType r.snapshot_type = some ty →
        proto.Unmarshal r.snapshot (proto.New ty) = .ok m →
        res = (some m, r.event_index, true)) ∧
      (res.2.2 = false → res = (none, -1, false))) ∧
    (∃ res, GetSnapshot proto db a = .returned res ∧
      (res.2.2 = true ↔
        ∃ r ty m, db.snapshots.find? (fun x => decide (x.actor_name = a)) = some r ∧
          proto.MessageType r.snapshot_type = some ty ∧
          proto.Unmarshal r.snapshot (proto.New ty) = .ok m) ∧
      (∀ r ty m, db.snapshots.find? (fun x => decide (x.actor_name = a)) = some r →
        proto.MessageType r.snapshot_type = some ty →
        proto.Unmarshal r.snapshot (proto.New ty) = .ok m →
        res = (some m, r.event_index, true)) ∧
      (res.2.2 = false → res = (none, -1, false))) := by
  obtain ⟨⟨res1, h1, hiff1, hval1, hnone1⟩, ⟨res2, h2, hiff2, hval2, hnone2⟩⟩ :=
    GetSnapshot_ofRow_cases proto db a row
  refine ⟨⟨res1, h1, ?_, ?_, hnone1⟩, ⟨res2, h2, ?_, ?_, hnone2⟩⟩
  · rw [hiff1]
    constructor
    · rintro ⟨he, r, m, hs, hm⟩
      obtain ⟨ty, hreg, hun⟩ := (extractData_ok_iff proto a _ _ m).mp hm
      exact ⟨he, r, ty, m, hs, hreg, hun⟩
    · rintro ⟨he, r, ty, m, hs, hreg, hun⟩
      exact ⟨he, r, m, hs, (extractData_ok_iff proto a _ _ m).mpr ⟨ty, hreg, hun⟩⟩
  · intro r ty m he hs hreg hun
    exact hval1 r m he hs ((extractData_ok_iff proto a _ _ m).mpr ⟨ty, hreg, hun⟩)
  · rw [hiff2]
    constructor
    · rintro ⟨r, m, hf, hm⟩
      obtain ⟨ty, hreg, hun⟩ := (extractData_ok_iff proto a _ _ m).mp hm
      exact ⟨r, ty, m, hf, hreg, hun⟩
    · rintro ⟨r, ty, m, hf, hreg, hun⟩
      exact ⟨r, m, hf, (extractData_ok_iff proto a _ _ m).mpr ⟨ty, hreg, hun⟩⟩
  · intro r ty m hf hreg hun
    exact hval2 r m hf ((extractData_ok_iff proto a _ _ m).mpr ⟨ty, hreg, hun⟩)

end ReadTheorems

/-! ## The wire vocabulary -/

/-- C6: the seven datum-type constants, the two result-status constants and
the ten header-name constants have the values of the wire format table; the
datum types are pairwise distinct, the header names are pairwise distinct, and the
user-header prefix is a prefix of none of the other nine header names. -/
theorem wire_vocabulary :
    [DatumTypeBlob, DatumTypeEmpty, DatumTypeError, DatumTypeStageRef, DatumTypeHttpReq,
      DatumTypeHttpResp, DatumTypeState]
      = ["blob", "empty", "error", "stageref", "httpreq", "httpresp", "state"] ∧
    [DatumTypeBlob, DatumTypeEmpty, DatumTypeError, DatumTypeStageRef, DatumTypeHttpReq,
      DatumTypeHttpResp, DatumTypeState].Nodup ∧
    [ResultStatusSuccess, ResultStatusFailure] = ["success", "failure"] ∧
    [HeaderDatumType, HeaderResultStatus, HeaderResultCode, HeaderStageRef, HeaderMethod,
      HeaderHeaderPrefix, HeaderErrorType, HeaderStateType, HeaderThreadId, HeaderContentType]
      = ["Fnproject-Datumtype", "Fnproject-Resultstatus", "Fnproject-Resultcode",
         "Fnproject-Stageid", "Fnproject-Method", "Fnproject-Header-", "Fnproject-Errortype",
         "Fnproject-Statetype", "Fnproject-Threadid", "Content-Type"] ∧
    [HeaderDatumType, HeaderResultStatus, HeaderResultCode, HeaderStageRef, HeaderMethod,
      HeaderHeaderPrefix, HeaderErrorType, HeaderStateType, HeaderThreadId,
      HeaderContentType].Nodup ∧
    (∀ h ∈ [HeaderDatumType, HeaderResultStatus, HeaderResultCode, HeaderStageRef, HeaderMethod,
        HeaderErrorType, HeaderStateType, HeaderThreadId, HeaderContentType],
      ¬ HeaderHeaderPrefix.toList <+: h.toList) := by
  refine ⟨rfl, by decide, rfl, rfl, by decide, ?_⟩
  decide



/-! ## The graph manager -/

section ManagerTheorems

variable {Reason : Type}

theorem lookup_append_singleton {β : Type} (l : List (String × β)) (k k1 : String) (v : β) :
    (l ++ [(k, v)]).lookup k1 =
      match l.lookup k1 with
      | some x => some x
      | none => if k1 = k then some v else none := by
  induction l with
  | nil =>
    by_cases h : k1 = k
    · simp [List.lookup, h]
    · have : (k1 == k) = false := by simpa using h
      simp [List.lookup, h, this]
  | cons y ys ih =>
    obtain ⟨ky, vy⟩ := y
    by_cases h : k1 = ky
    · simp [List.lookup, h]
    · have : (k1 == ky) = false := by simpa using h
      simp only [List.cons_append, List.lookup, this]
      exact ih

theorem SpawnNamed_lookup_self (props : Props Reason) (name : String) (w : World Reason)
    (hfree : w.processes.lookup name = none) :
    (SpawnNamed props name w).2.processes.lookup name = some props := by
  simp only [SpawnNamed, hfree]
  rw [lookup_append_singleton, hfree]
  simp

theorem SpawnNamed_lookup_other (props : Props Reason) (name other : String) (w : World Reason)
    (hne : other ≠ name) :
    (SpawnNamed props name w).2.processes.lookup other = w.processes.lookup other := by
  unfold SpawnNamed
  cases hl : w.processes.lookup name with
  | some x => rfl
  | none =>
    simp only
    rw [lookup_append_singleton]
    cases w.processes.lookup other with
    | some y => rfl
    | none => simp [hne]

theorem NewGraphManager_executor_props (fnHost fnPort : String) (w : World Reason)
    (he : w.processes.lookup "executor" = none) :
    (NewGraphManager fnHost fnPort w).2.processes.lookup "executor" =
      some ((FromInstance (NewExecutor ("http://" ++ fnHost ++ ":" ++ fnPort ++ "/r"))).WithSupervisor
        (NewOneForOneStrategy 10 1000 NewGraphManager.decider)) := by
  simp only [NewGraphManager, NewUntypedStream]
  rw [SpawnNamed_lookup_other _ "supervisor" "executor" _ (by decide)]
  exact SpawnNamed_lookup_self _ "executor" w he

theorem NewGraphManager_supervisor_props (fnHost fnPort : String) (w : World Reason)
    (hs : w.processes.lookup "supervisor" = none) :
    (NewGraphManager fnHost fnPort w).2.processes.lookup "supervisor" =
      some ((FromInstance (NewSupervisor { Id := "executor" } { id := w.streams })).WithSupervisor
        (NewOneForOneStrategy 10 1000 NewGraphManager.decider)) := by
  simp only [NewGraphManager, NewUntypedStream]
  have hfree : (SpawnNamed ((FromInstance (NewExecutor
      ("http://" ++ fnHost ++ ":" ++ fnPort ++ "/r"))).WithSupervisor
      (NewOneForOneStrategy 10 1000 (NewGraphManager.decider : Reason → Directive)))
      "executor" w).2.processes.lookup "supervisor" = none := by
    rw [SpawnNamed_lookup_other _ "executor" "supervisor" _ (by decide)]
    exact hs
  have hpid : (SpawnNamed ((FromInstance (NewExecutor
      ("http://" ++ fnHost ++ ":" ++ fnPort ++ "/r"))).WithSupervisor
      (NewOneForOneStrategy 10 1000 (NewGraphManager.decider : Reason → Directive)))
      "executor" w).1.1 = { Id := "executor" } := by
    unfold SpawnNamed
    cases w.processes.lookup "executor" <;> rfl
  have hstreams : (SpawnNamed ((FromInstance (NewExecutor
      ("http://" ++ fnHost ++ ":" ++ fnPort ++ "/r"))).WithSupervisor
      (NewOneForOneStrategy 10 1000 (NewGraphManager.decider : Reason → Directive)))
      "executor" w).2.streams = w.streams := by
    unfold SpawnNamed
    cases w.processes.lookup "executor" <;> rfl
  rw [SpawnNamed_lookup_self _ "supervisor" _ (by simpa using hfree), hpid, hstreams]

/-- C7 on the code: for every host, port and world, `NewGraphManager`
allocates one event stream, but `GetEventStream` on the manager it returns gives
`nil`; in a fresh process the supervisor it spawns holds the stream allocated,
which the manager does not return. -/
theorem GetEventStream_of_NewGraphManager_nil (fnHost fnPort : String) (w : World Reason) :
    (NewGraphManager fnHost fnPort w).1.GetEventStream = none ∧
    (NewGraphManager fnHost fnPort w).2.streams = w.streams + 1 ∧
    ((NewGraphManager "localhost" "8080" (World.init String)).2.processes.lookup "supervisor").map
        (fun p => p.actor)
      = some (Actor.supervisor { Id := "executor" } { id := 0 }) ∧
    (NewGraphManager "localhost" "8080" (World.init String)).1.GetEventStream
      ≠ some { id := 0 } := by
  refine ⟨rfl, ?_, ?_, ?_⟩
  · simp only [NewGraphManager, NewUntypedStream, SpawnNamed]
    cases w.processes.lookup "executor" <;> simp only <;>
      split <;> rfl
  · rw [NewGraphManager_supervisor_props "localhost" "8080" (World.init String) rfl]
    rfl
  · intro h
    cases h

/-- C8, with the window the code passes: the decider installed by
`NewGraphManager` returns the stop directive for every failure reason, and both
the executor and the supervisor are spawned under the one-for-one strategy with
at most 10 retries within a `time.Duration` of 1000, which is 1000 nanoseconds. -/
theorem supervision_one_for_one_stop (fnHost fnPort : String) (w : World Reason)
    (he : w.processes.lookup "executor" = none) (hs : w.processes.lookup "supervisor" = none) :
    (∀ reason : Reason, NewGraphManager.decider reason = Directive.StopDirective) ∧
    ((NewGraphManager fnHost fnPort w).2.processes.lookup "executor").map
        (fun p => p.supervisionStrategy)
      = some (some (SupervisorStrategy.oneForOne 10 (1000 * Nanosecond) NewGraphManager.decider)) ∧
    ((NewGraphManager fnHost fnPort w).2.processes.lookup "supervisor").map
        (fun p => p.supervisionStrategy)
      = some (some (SupervisorStrategy.oneForOne 10 (1000 * Nanosecond) NewGraphManager.decider)) := by
  refine ⟨fun _ => rfl, ?_, ?_⟩
  · rw [NewGraphManager_executor_props fnHost fnPort w he]
    rfl
  · rw [NewGraphManager_supervisor_props fnHost fnPort w hs]
    rfl

/-- Witness of C8 as amended, in the world of a fresh process. -/
theorem supervision_one_for_one_stop_witness :
    (World.init String).processes.lookup "executor" = none ∧
    (World.init String).processes.lookup "supervisor" = none ∧
    ((NewGraphManager "localhost" "8080" (World.init String)).2.processes.lookup "executor").map
        (fun p => p.supervisionStrategy)
      = some (some (SupervisorStrategy.oneForOne 10 (1000 * Nanosecond) NewGraphManager.decider)) :=
  ⟨rfl, rfl, (supervision_one_for_one_stop "localhost" "8080" (World.init String) rfl rfl).2.1⟩

/-- C8 fails as stated: in a fresh process the executor is spawned under a
one-for-one strategy whose window is not 1000 milliseconds, for any retry count
and decider. -/
theorem supervision_window_not_1000_ms :
    ¬ ∃ (n : Int) (d : String → Directive),
      ((NewGraphManager "localhost" "8080" (World.init String)).2.processes.lookup "executor").map
          (fun p => p.supervisionStrategy)
        = some (some (SupervisorStrategy.oneForOne n (1000 * Millisecond) d)) := by
  rintro ⟨n, d, h⟩
  rw [NewGraphManager_executor_props "localhost" "8080" (World.init String) rfl] at h
  simp only [Option.map_some', Props.WithSupervisor, NewOneForOneStrategy, Option.some.injEq,
    SupervisorStrategy.oneForOne.injEq] at h
  exact absurd h.2.1 (by decide)

/-- C9: when the name `executor` is free, `NewGraphManager(h, p)` spawns the
executor constructed with the base URL `"http://" ++ h ++ ":" ++ p ++ "/r"`, and
appending `"/"` and a function id to that base URL gives
`http://<h>:<p>/r/<function_id>`. -/
theorem executor_base_url (fnHost fnPort : String) (w : World Reason)
    (he : w.processes.lookup "executor" = none) :
    ((NewGraphManager fnHost fnPort w).2.processes.lookup "executor").map (fun p => p.actor)
      = some (NewExecutor ("http://" ++ fnHost ++ ":" ++ fnPort ++ "/r")) ∧
    (∀ functionId : String,
      ("http://" ++ fnHost ++ ":" ++ fnPort ++ "/r") ++ "/" ++ functionId
        = "http://" ++ fnHost ++ ":" ++ fnPort ++ "/r/" ++ functionId) := by
  constructor
  · rw [NewGraphManager_executor_props fnHost fnPort w he]
    rfl
  · intro functionId
    have h : ("/r" : String) ++ "/" = "/r/" := by decide
    rw [String.append_assoc _ "/r" "/", h]

/-- Witness of C9 in the world of a fresh process. -/
theorem executor_base_url_witness :
    (World.init String).processes.lookup "executor" = none ∧
    ((NewGraphManager "localhost" "8080" (World.init String)).2.processes.lookup "executor").map
        (fun p => p.actor)
      = some (NewExecutor "http://localhost:8080/r") ∧
    ("http://" ++ "localhost" ++ ":" ++ "8080" ++ "/r") ++ "/" ++ "myapp/fn"
      = "http://localhost:8080/r/myapp/fn" :=
  have h := executor_base_url "localhost" "8080" (World.init String) rfl
  ⟨rfl, by rw [h.1]; decide, by decide⟩

end ManagerTheorems

end Flow
